import Mathlib

/-!
Verification of the quiz-scoring and statistics-aggregation engine of a
Flask-based academic feedback platform.

The Python source is shallowly embedded:
* SQLAlchemy rows become Lean structures; nullable columns become `Option`.
* Python `float` scores become `ℚ`; `round(x, 1)` becomes round-half-to-even
  at one decimal over `ℚ` (CPython rounds the underlying binary float to the
  nearest representable multiple of the decimal step, which agrees with the
  rational model away from representation boundaries).
* Python dictionaries keyed by `str(question_id)` become association lists
  keyed by the numeric id (string conversion of distinct ids is injective).
* Datetimes are only ever compared by calendar day in the embedded code, so
  `created_at`/`date_taken` are embedded directly as day numbers in `ℤ`.
* Expressions that can raise (`None.upper()`) return `Except PyErr`.
-/

namespace Seng321

/-! ## Rounding: `round(x, 1)` from CPython, modelled over `ℚ` -/

/-- Round to the nearest integer, ties to the even integer
(the rounding rule of CPython's builtin `round`).
`Rat.floor` is used so that the definition evaluates by kernel reduction. -/
def rndHalfEven (x : ℚ) : ℤ :=
  if x - x.floor < 1/2 then x.floor
  else if 1/2 < x - x.floor then x.floor + 1
  else if x.floor % 2 = 0 then x.floor else x.floor + 1

/-- `round(x, 1)`: round to one decimal place. -/
def round1 (x : ℚ) : ℚ := (rndHalfEven (10 * x) : ℚ) / 10

/-! ## Python string case operations (character-wise) -/

/-- `str.upper()` modelled character-wise. -/
def upper (s : String) : String := ⟨s.data.map Char.toUpper⟩

/-- `str.lower()` modelled character-wise (also SQL `func.lower`). -/
def lower (s : String) : String := ⟨s.data.map Char.toLower⟩

/-- The single runtime error the embedded fragments can raise:
`AttributeError` from `None.upper()`. -/
inductive PyErr where
  | attributeError
  deriving DecidableEq, Repr

/-! ## Data model (`models/entities.py`)

Only the columns read by the embedded functions are carried.
Nullable columns are `Option`; `Float` score columns are `ℚ`. -/

/-- `Question` row: `correct_answer` is `nullable=False`,
`category` is `nullable=True`. -/
structure Question where
  id : ℕ
  question_text : String
  correct_answer : String
  category : Option String
  deriving DecidableEq, Repr

/-- `Grade` row: `score` is `nullable=False`; the speaking sub-scores
`pronunciation_score` and `fluency_score` are `nullable=True`. -/
structure Grade where
  score : ℚ
  pronunciation_score : Option ℚ
  fluency_score : Option ℚ
  deriving DecidableEq, Repr

/-- `Submission` row plus its optional one-to-one `Grade`
(`s.grade` is `None` while ungraded). `created_at` is the creation day. -/
structure Submission where
  student_id : ℕ
  submission_type : String
  grade : Option Grade
  created_at : ℤ
  deriving DecidableEq, Repr

/-- Persisted `Quiz` row as read by the dashboards:
`score` is `nullable=False`, `date_taken` may be absent. -/
structure QuizRec where
  score : ℚ
  date_taken : Option ℤ
  deriving DecidableEq, Repr

/-! ## QuizService (`services/quiz_service.py`) -/

/-- `Question.query.get(question_id)` over an in-memory table. -/
def query_get (db : List Question) (qid : ℕ) : Option Question :=
  db.find? (fun q => q.id == qid)

/-- The SQL predicate `func.lower(Question.category) == category.lower()`
(SQL `NULL` compares unequal to every string), guarded by Python's
`if category:` truthiness (`None` and `""` disable the filter). -/
def question_matches (category : Option String) (q : Question) : Bool :=
  match category with
  | none => true
  | some c => c == "" || q.category.map lower == some (lower c)

/-- `QuizService.get_questions(limit, category)`.
The source's two early-return branches both return the empty list that
`query.limit(limit).all()` already produced, so they are no-ops. -/
def get_questions (db : List Question) (limit : ℕ) (category : Option String) :
    List Question :=
  (db.filter (question_matches category)).take limit

/-- `[cat[0] for cat in db.session.query(Question.category.distinct()).all()
if cat[0]]`: distinct categories with the falsy values (`NULL`, `""`)
dropped. -/
def distinct_categories (db : List Question) : List String :=
  ((db.map (fun q => q.category)).dedup).filterMap (fun c =>
    match c with
    | some s => if s = "" then none else some s
    | none => none)

/-- The three textual outcomes of `check_questions_available`, with the
message's variable payload (the available-category list) kept structured. -/
inductive AvailMsg where
  | questionsAvailable
  | noQuestionsInDb
  | noQuestionsForCategory (available : List String)
  deriving DecidableEq, Repr

/-- `QuizService.check_questions_available(category)`. -/
def check_questions_available (db : List Question) (category : Option String) :
    Bool × AvailMsg :=
  if db.length = 0 then (false, .noQuestionsInDb)
  else
    match category with
    | none => (true, .questionsAvailable)
    | some c =>
      if c = "" then (true, .questionsAvailable)
      else if (db.countP (fun q => q.category.map lower == some (lower c))) = 0 then
        (false, .noQuestionsForCategory (distinct_categories db))
      else (true, .questionsAvailable)

/-- `user_answer.upper()`: raises `AttributeError` when the value is `None`. -/
def py_upper : Option String → Except PyErr String
  | none => .error .attributeError
  | some s => .ok (upper s)

/-- `QuizService.check_answer(question_id, user_answer)`.
The question lookup happens first, so a missing question returns `False`
even for a `None` answer; otherwise `user_answer.upper()` is evaluated. -/
def check_answer (db : List Question) (qid : ℕ) (user_answer : Option String) :
    Except PyErr Bool :=
  match query_get db qid with
  | none => .ok false
  | some q =>
    match py_upper user_answer with
    | .error e => .error e
    | .ok u => .ok (decide (u = upper q.correct_answer))

/-- `key in user_answers` / `user_answers[key]` over the answers dict. -/
def dict_get (answers : List (ℕ × String)) (k : ℕ) : Option String :=
  (answers.find? (fun kv => kv.1 == k)).map (fun kv => kv.2)

/-- One loop iteration of `calculate_final_score`: the answer counts as
correct when the key is present, the question exists, and the submitted
answer matches the stored one case-insensitively. -/
def answer_is_correct (db : List Question) (answers : List (ℕ × String))
    (qid : ℕ) : Bool :=
  match dict_get answers qid with
  | none => false
  | some ans =>
    match query_get db qid with
    | none => false
    | some q => decide (upper ans = upper q.correct_answer)

/-- `QuizService.calculate_final_score(question_ids, user_answers)`:
returns `(correct, total, score)` with
`score = round((correct / total) * 100, 1) if total > 0 else 0`. -/
def calculate_final_score (db : List Question) (question_ids : List ℕ)
    (user_answers : List (ℕ × String)) : ℕ × ℕ × ℚ :=
  let correct := question_ids.countP (fun qid => answer_is_correct db user_answers qid)
  let total := question_ids.length
  let score : ℚ :=
    if 0 < total then round1 (((correct : ℚ) / (total : ℚ)) * 100) else 0
  (correct, total, score)

/-! ## Result persistence (`QuizService.save_result`)

The SQLAlchemy session is embedded with the standard transactional
semantics the route code relies on: `session.add` stages a pending row,
`session.flush` assigns the autoincrement id but keeps the transaction
open (nothing becomes visible to other transactions), and only
`session.commit` publishes the pending rows into the visible database.
An exception raised before `commit` leaves the visible state untouched.
-/

/-- `Quiz` row as written by `save_result`. -/
structure QuizRow where
  id : ℕ
  user_id : ℕ
  quiz_title : String
  score : ℚ
  category : Option String
  deriving DecidableEq, Repr

/-- `QuizDetail` row as declared in `models/entities.py`. The mapped class
has *no* `explanation` attribute: only the raw SQLite table gains that
column through a startup `ALTER TABLE`, and the read path accesses it
behind a `hasattr` guard. -/
structure QuizDetailRow where
  quiz_id : ℕ
  question_text : String
  user_answer : Option String
  correct_answer : Option String
  is_correct : Bool
  deriving DecidableEq, Repr

/-- The committed (visible) result store. -/
structure ResultDB where
  quizzes : List QuizRow
  quiz_details : List QuizDetailRow
  deriving DecidableEq, Repr

/-- An open SQLAlchemy session: visible store plus staged-but-uncommitted
rows and the next autoincrement id (handed out by `flush`). -/
structure DbSession where
  committed : ResultDB
  pending_quizzes : List QuizRow
  pending_details : List QuizDetailRow
  next_id : ℕ
  deriving DecidableEq, Repr

/-- The kinds of failure that can abort `save_result` between the flushed
summary write and the final commit. -/
inductive SaveFailure where
  | injected
  | typeError
  deriving DecidableEq, Repr

/-- Result of a `save_result` call: normal return with the new quiz id, or
an exception propagating out of the open (uncommitted) session. -/
inductive SaveOutcome where
  | ok (s : DbSession) (quiz_id : ℕ)
  | failed (s : DbSession) (e : SaveFailure)
  deriving DecidableEq, Repr

/-- Whether the outcome was a failure. -/
def outcomeFailed : SaveOutcome → Bool
  | .ok _ _ => false
  | .failed _ _ => true

/-! ## StatsService / student dashboard (`services/stats_service.py`,
`app.py dashboard`) -/

/-- Python truthiness of a nullable float column:
`None` and `0.0` are falsy. -/
def truthy : Option ℚ → Bool
  | none => false
  | some x => decide (x ≠ 0)

/-- `[s for s in submissions if s.submission_type == 'SPEAKING' and s.grade]`. -/
def speaking_subs (subs : List Submission) : List Submission :=
  subs.filter (fun s => s.submission_type == "SPEAKING" && s.grade.isSome)

/-- `[s for s in submissions if s.submission_type == 'WRITING' and s.grade]`. -/
def writing_subs (subs : List Submission) : List Submission :=
  subs.filter (fun s => s.submission_type == "WRITING" && s.grade.isSome)

/-- `[s for s in submissions if s.submission_type == 'HANDWRITTEN' and s.grade]`. -/
def handwritten_subs (subs : List Submission) : List Submission :=
  subs.filter (fun s => s.submission_type == "HANDWRITTEN" && s.grade.isSome)

/-- The `scores` list of the speaking loop: one entry
`(pronunciation_score + fluency_score) / 2` per graded speaking submission
whose two sub-scores are both truthy (present and nonzero). -/
def speaking_contributions (subs : List Submission) : List ℚ :=
  (speaking_subs subs).filterMap (fun s =>
    match s.grade with
    | some g =>
      if truthy g.pronunciation_score && truthy g.fluency_score then
        some ((g.pronunciation_score.getD 0 + g.fluency_score.getD 0) / 2)
      else none
    | none => none)

/-- The dashboard's `speaking_score` (identical in
`StatsService.get_dashboard_data` and the `dashboard` route):
`0.0` when there are no graded speaking submissions, otherwise
`round(sum(scores) / len(scores), 1) if scores else 0.0`. -/
def speaking_score (subs : List Submission) : ℚ :=
  if (speaking_subs subs).isEmpty then 0
  else
    let scores := speaking_contributions subs
    if scores.isEmpty then 0 else round1 (scores.sum / scores.length)

/-- The dashboard's `writing_score`:
`round(sum(s.grade.score for s in writing_subs) / len(writing_subs), 1)
if writing_subs else 0.0`. -/
def writing_score (subs : List Submission) : ℚ :=
  if (writing_subs subs).isEmpty then 0
  else
    round1 (((writing_subs subs).filterMap (fun s => s.grade.map Grade.score)).sum /
      (writing_subs subs).length)

/-- The `recommended_next` decision chain of the `dashboard` route
(`completed_quizzes = len(all_quizzes)`). -/
def recommended_next (subs : List Submission) (completed_quizzes : ℕ) : String :=
  if (speaking_subs subs).isEmpty then "Improve Your Speaking"
  else if (writing_subs subs).isEmpty then "Improve Your Writing"
  else if speaking_score subs < 70 then "Improve Your Speaking"
  else if writing_score subs < 70 then "Improve Your Writing"
  else if completed_quizzes = 0 then "Take a Quiz"
  else "Start Your First Activity"

/-! ## Strongest/weakest area classification (`app.py dashboard`) -/

/-- The `area_scores` dict, in insertion order. -/
def area_scores (sp w q h : ℚ) : List (String × ℚ) :=
  [("Speaking", sp), ("Writing", w), ("Quiz", q), ("Handwritten", h)]

/-- One comparison step of `max(d, key=d.get)`: a strictly greater value
replaces the current best, so the first maximal entry wins ties. -/
def pickStepMax (acc : Option (String × ℚ)) (kv : String × ℚ) :
    Option (String × ℚ) :=
  match acc with
  | none => some kv
  | some best => if best.2 < kv.2 then some kv else acc

/-- One comparison step of `min(d, key=d.get)`: the first minimal entry
wins ties. -/
def pickStepMin (acc : Option (String × ℚ)) (kv : String × ℚ) :
    Option (String × ℚ) :=
  match acc with
  | none => some kv
  | some best => if kv.2 < best.2 then some kv else acc

/-- `max(d, key=d.get)` over an association list in dict iteration order. -/
def pickMax (l : List (String × ℚ)) : Option (String × ℚ) :=
  l.foldl pickStepMax none

/-- `min(d, key=d.get)` over an association list in dict iteration order. -/
def pickMin (l : List (String × ℚ)) : Option (String × ℚ) :=
  l.foldl pickStepMin none

/-- The strongest/weakest classification:
`non_zero_scores = {k: v for k, v in area_scores.items() if v > 0}`, then
max/min by value when non-empty, else the fixed fallback pair. -/
def classify_strongest_weakest (sp w q h : ℚ) : String × ℚ × String × ℚ :=
  let nz := (area_scores sp w q h).filter (fun kv => decide (0 < kv.2))
  match pickMax nz, pickMin nz with
  | some strongest, some weakest => (strongest.1, strongest.2, weakest.1, weakest.2)
  | _, _ => ("Speaking", 0, "Handwritten", 0)

/-! ## Instructor dashboard 7-day sparkline (`app.py instructor_dashboard`) -/

/-- `last_7_days = [today - timedelta(days=i) for i in range(6, -1, -1)]`:
oldest first, today last. -/
def last7Days (today : ℤ) : List ℤ :=
  [today - 6, today - 5, today - 4, today - 3, today - 2, today - 1, today]

/-- The four per-day `defaultdict`s filled by the sparkline loop, as total
maps from day to accumulated value (`defaultdict` defaults: `0`, `0`, `[]`,
`set()`). -/
structure DayAgg where
  subCount : ℤ → ℕ
  pendingCount : ℤ → ℕ
  dayScores : ℤ → List ℚ
  activeStudents : ℤ → Finset ℕ

/-- All four defaultdicts before the loop runs. -/
def emptyAgg : DayAgg :=
  { subCount := fun _ => 0
    pendingCount := fun _ => 0
    dayScores := fun _ => []
    activeStudents := fun _ => ∅ }

/-- One iteration of `for sub in all_subs:` — updates the four dicts at
`sub.created_at.date()` only when that day lies in the window. -/
def aggStep (window : List ℤ) (m : DayAgg) (s : Submission) : DayAgg :=
  if s.created_at ∈ window then
    { subCount := fun d => if d = s.created_at then m.subCount d + 1 else m.subCount d
      pendingCount :=
        if s.grade.isNone then
          fun d => if d = s.created_at then m.pendingCount d + 1 else m.pendingCount d
        else m.pendingCount
      dayScores :=
        match s.grade with
        | some g =>
          fun d => if d = s.created_at then m.dayScores d ++ [g.score] else m.dayScores d
        | none => m.dayScores
      activeStudents := fun d =>
        if d = s.created_at then insert s.student_id (m.activeStudents d)
        else m.activeStudents d }
  else m

/-- The four arrays of `sparkline_data`, oldest day first. -/
structure Sparkline where
  submissions : List ℕ
  pending : List ℕ
  classAvg : List ℚ
  activeStudents : List ℕ
  deriving DecidableEq, Repr

/-- The `sparkline_data` block of `instructor_dashboard`: run the loop over
all submissions, then read each dict back along `last_7_days`
(`class_avg` entries are `round(sum/len, 1) if scores else 0.0`). -/
def sparkline_data (subs : List Submission) (today : ℤ) : Sparkline :=
  let window := last7Days today
  let m := subs.foldl (aggStep window) emptyAgg
  { submissions := window.map m.subCount
    pending := window.map m.pendingCount
    classAvg := window.map (fun d =>
      if (m.dayScores d).isEmpty then 0
      else round1 ((m.dayScores d).sum / (m.dayScores d).length))
    activeStudents := window.map (fun d => (m.activeStudents d).card) }

/-! ## Student dashboard multi-series chart (`app.py dashboard`) -/

/-- Speaking observations feeding the chart: graded speaking submissions
whose two sub-scores are both `is not None` (note: the chart, unlike the
area score, keeps zero sub-scores), keyed by creation day. -/
def chart_speaking_obs (subs : List Submission) : List (ℤ × ℚ) :=
  (speaking_subs subs).filterMap (fun s =>
    match s.grade with
    | some g =>
      match g.pronunciation_score, g.fluency_score with
      | some p, some f => some (s.created_at, (p + f) / 2)
      | _, _ => none
    | none => none)

/-- Writing observations: graded writing submissions
(`sub.grade.score` is a non-nullable column, so the source's
`is not None` guard always passes). -/
def chart_writing_obs (subs : List Submission) : List (ℤ × ℚ) :=
  (writing_subs subs).filterMap (fun s =>
    s.grade.map (fun g => (s.created_at, g.score)))

/-- Handwritten observations, same shape as writing. -/
def chart_handwritten_obs (subs : List Submission) : List (ℤ × ℚ) :=
  (handwritten_subs subs).filterMap (fun s =>
    s.grade.map (fun g => (s.created_at, g.score)))

/-- Quiz observations: `if quiz.date_taken and quiz.score is not None`
(the score column is non-nullable; `date_taken` may be absent). -/
def chart_quiz_obs (quizzes : List QuizRec) : List (ℤ × ℚ) :=
  quizzes.filterMap (fun q => q.date_taken.map (fun d => (d, q.score)))

/-- The `all_dates` set: union of the observation days of all four kinds. -/
def chart_dates (subs : List Submission) (quizzes : List QuizRec) : Finset ℤ :=
  ((chart_speaking_obs subs).map Prod.fst).toFinset ∪
    ((chart_writing_obs subs).map Prod.fst).toFinset ∪
    ((chart_handwritten_obs subs).map Prod.fst).toFinset ∪
    ((chart_quiz_obs quizzes).map Prod.fst).toFinset

/-- `sorted_dates = sorted(all_dates)`. -/
def sorted_dates (subs : List Submission) (quizzes : List QuizRec) : List ℤ :=
  (chart_dates subs quizzes).sort (· ≤ ·)

/-- One chart series: per sorted date, the same-day average
`round(sum/len, 1)` when that kind was observed, else the `0` sentinel
(the per-date dict holds the day's scores in insertion order). -/
def series_for (obs : List (ℤ × ℚ)) (dates : List ℤ) : List ℚ :=
  dates.map (fun d =>
    let l := (obs.filter (fun o => o.1 == d)).map Prod.snd
    if l.isEmpty then 0 else round1 (l.sum / l.length))

/-- The `chart_data` record (dates kept as day numbers; the source only
formats them for display when appending). -/
structure ChartData where
  dates : List ℤ
  speaking_scores : List ℚ
  writing_scores : List ℚ
  quiz_scores : List ℚ
  handwritten_scores : List ℚ
  deriving DecidableEq, Repr

/-- The chart-building block of the `dashboard` route. -/
def chart_data (subs : List Submission) (quizzes : List QuizRec) : ChartData :=
  let ds := sorted_dates subs quizzes
  { dates := ds
    speaking_scores := series_for (chart_speaking_obs subs) ds
    writing_scores := series_for (chart_writing_obs subs) ds
    quiz_scores := series_for (chart_quiz_obs quizzes) ds
    handwritten_scores := series_for (chart_handwritten_obs subs) ds }

/-! ## Spec-side reference definitions

Each definition below follows the words of a spec claim (not the source)
and is compared with the corresponding source embedding above. -/

/-- Claim C2 as worded: the speaking area score averages
`(pronunciation + fluency) / 2` over exactly those graded speaking
activities in which both sub-scores are *present* (zero sub-scores
included), `0.0` when none qualify. -/
def speaking_score_claim (subs : List Submission) : ℚ :=
  let contribs := (speaking_subs subs).filterMap (fun s =>
    match s.grade with
    | some g =>
      match g.pronunciation_score, g.fluency_score with
      | some p, some f => some ((p + f) / 2)
      | _, _ => none
    | none => none)
  if contribs.isEmpty then 0 else round1 (contribs.sum / contribs.length)

/-- Claim C2 amended: qualifying activities are those whose two sub-scores
are both present *and nonzero*. -/
def speaking_score_amended (subs : List Submission) : ℚ :=
  let qual := (speaking_subs subs).filterMap (fun s =>
    match s.grade with
    | some g =>
      match g.pronunciation_score, g.fluency_score with
      | some p, some f => if p ≠ 0 ∧ f ≠ 0 then some ((p + f) / 2) else none
      | _, _ => none
    | none => none)
  if qual.isEmpty then 0 else round1 (qual.sum / qual.length)

/-- Claim C5 as worded: conditions (1) and (2) of the decision table test
whether the student has *any* speaking/writing submission ever (graded or
not); the remaining conditions and the order are as in the source. -/
def recommend_claim (subs : List Submission) (completed_quizzes : ℕ) : String :=
  if (subs.filter (fun s => s.submission_type == "SPEAKING")).isEmpty then
    "Improve Your Speaking"
  else if (subs.filter (fun s => s.submission_type == "WRITING")).isEmpty then
    "Improve Your Writing"
  else if speaking_score subs < 70 then "Improve Your Speaking"
  else if writing_score subs < 70 then "Improve Your Writing"
  else if completed_quizzes = 0 then "Take a Quiz"
  else "Start Your First Activity"

/-- Claim C7 as worded: the per-day `avgScore` series is the *exact* mean
grade score of the day (no rounding), `0.0` when nothing was graded. -/
def class_avg_claim (subs : List Submission) (today : ℤ) : List ℚ :=
  (last7Days today).map (fun d =>
    let l := subs.filterMap (fun s =>
      if s.created_at = d then s.grade.map Grade.score else none)
    if l.isEmpty then 0 else l.sum / l.length)

/-! ## Concrete fixtures for witnesses and counterexamples -/

/-- One-question pool: question 1, correct answer `"A"`. -/
def db1 : List Question :=
  [{ id := 1, question_text := "2 + 2 ?", correct_answer := "A",
     category := some ("grammar") }]

/-- Pool with three grammar questions and two vocabulary questions. -/
def db2 : List Question :=
  [{ id := 1, question_text := "g1", correct_answer := "A", category := some ("grammar") },
   { id := 2, question_text := "g2", correct_answer := "B", category := some ("grammar") },
   { id := 3, question_text := "g3", correct_answer := "C", category := some ("grammar") },
   { id := 4, question_text := "v1", correct_answer := "A", category := some ("vocabulary") },
   { id := 5, question_text := "v2", correct_answer := "D", category := some ("vocabulary") }]

/-- A graded speaking submission whose pronunciation sub-score is present
but zero (fluency 80). -/
def subZeroPron : Submission :=
  { student_id := 3, submission_type := "SPEAKING",
    grade := some { score := 50, pronunciation_score := some 0,
                    fluency_score := some 80 },
    created_at := 0 }

/-- An ungraded speaking submission. -/
def subUngraded : Submission :=
  { student_id := 7, submission_type := "SPEAKING", grade := none,
    created_at := 0 }

/-- A graded writing-type submission on day 0 with the given score. -/
def gradedOn0 (sc : ℚ) : Submission :=
  { student_id := 1, submission_type := "WRITING",
    grade := some { score := sc, pronunciation_score := none,
                    fluency_score := none },
    created_at := 0 }

/-- Three same-day graded submissions with scores 0, 0 and 1:
their exact mean 1/3 is not representable at one decimal. -/
def subsThird : List Submission := [gradedOn0 0, gradedOn0 0, gradedOn0 1]

/-! # Theorems -/

/-! ## Properties of the rounding primitive -/

theorem ratFloor_eq_intFloor (x : ℚ) : x.floor = ⌊x⌋ :=
  (Rat.floor_def' x).trans Rat.floor_def.symm

theorem rndHalfEven_intCast (n : ℤ) : rndHalfEven (n : ℚ) = n := by
  unfold rndHalfEven
  rw [ratFloor_eq_intFloor]
  norm_num

theorem rndHalfEven_nonneg {x : ℚ} (h : 0 ≤ x) : 0 ≤ rndHalfEven x := by
  have hf : 0 ≤ ⌊x⌋ := Int.floor_nonneg.mpr h
  unfold rndHalfEven
  rw [ratFloor_eq_intFloor]
  split_ifs <;> omega

theorem rndHalfEven_le_of_lt {x : ℚ} {n : ℤ} (h : x < (n : ℚ) + 1/2) :
    rndHalfEven x ≤ n := by
  have hfn : ⌊x⌋ ≤ n := by
    have h1 : x < ((n + 1 : ℤ) : ℚ) := by push_cast; linarith
    have := Int.floor_lt.mpr h1
    omega
  have hfx := Int.floor_le x
  unfold rndHalfEven
  rw [ratFloor_eq_intFloor]
  split_ifs with h1 h2 h3
  · exact hfn
  · have hax : (⌊x⌋ : ℚ) + 1/2 < x := by linarith
    have hq : (⌊x⌋ : ℚ) < (n : ℚ) := by linarith
    have : ⌊x⌋ < n := by exact_mod_cast hq
    omega
  · exact hfn
  · have hax : x - ⌊x⌋ = 1/2 := le_antisymm (not_lt.mp h2) (not_lt.mp h1)
    have hq : (⌊x⌋ : ℚ) < (n : ℚ) := by linarith
    have : ⌊x⌋ < n := by exact_mod_cast hq
    omega

theorem rndHalfEven_one_le {x : ℚ} (h : 1/2 < x) : 1 ≤ rndHalfEven x := by
  have hf0 : (0:ℤ) ≤ ⌊x⌋ := Int.floor_nonneg.mpr (by linarith)
  unfold rndHalfEven
  rw [ratFloor_eq_intFloor]
  split_ifs with h1 h2 h3
  · by_contra hc
    push_neg at hc
    have h0 : ⌊x⌋ = 0 := by omega
    rw [h0] at h1
    push_cast at h1
    linarith
  · omega
  · have hax : x - ⌊x⌋ ≤ 1/2 := not_lt.mp h2
    have hq : (0:ℚ) < (⌊x⌋ : ℚ) := by linarith
    have : (0:ℤ) < ⌊x⌋ := by exact_mod_cast hq
    omega
  · omega

/-- Evaluation rule: when `n ≤ x < n + 1/2`, the value rounds down to `n`. -/
theorem rndHalfEven_eq_of_lt_half {x : ℚ} {n : ℤ} (hn : (n : ℚ) ≤ x)
    (h : x < (n : ℚ) + 1/2) : rndHalfEven x = n := by
  have hfl : ⌊x⌋ = n := Int.floor_eq_iff.mpr ⟨hn, by linarith⟩
  unfold rndHalfEven
  rw [ratFloor_eq_intFloor, hfl, if_pos (by linarith)]

/-- Evaluation rule: integers round to themselves at one decimal. -/
theorem round1_intCast (n : ℤ) : round1 ((n : ℤ) : ℚ) = n := by
  rw [round1]
  have h10 : (10 : ℚ) * (n : ℚ) = (((10 * n : ℤ)) : ℚ) := by push_cast; ring
  rw [h10, rndHalfEven_intCast]
  push_cast
  ring

/-- Arithmetic core of claim C1: properties of
`round((c / t) * 100, 1)` for a session of `t ≤ 1999` questions. -/
theorem score_props (c t : ℕ) (hc : c ≤ t) (h1 : 1 ≤ t) (h2 : t ≤ 1999) :
    0 ≤ round1 (((c : ℚ) / (t : ℚ)) * 100) ∧
    round1 (((c : ℚ) / (t : ℚ)) * 100) ≤ 100 ∧
    (round1 (((c : ℚ) / (t : ℚ)) * 100) = 0 ↔ c = 0) ∧
    (round1 (((c : ℚ) / (t : ℚ)) * 100) = 100 ↔ c = t) := by
  have ht0 : (0:ℚ) < (t : ℚ) := by exact_mod_cast h1
  have hcq : (c : ℚ) ≤ (t : ℚ) := by exact_mod_cast hc
  have ht19 : (t : ℚ) ≤ 1999 := by exact_mod_cast h2
  have hX : 10 * (((c : ℚ) / (t : ℚ)) * 100) = 1000 * (c : ℚ) / (t : ℚ) := by
    ring
  have hx0 : 0 ≤ 1000 * (c : ℚ) / (t : ℚ) := by positivity
  have hx1000 : 1000 * (c : ℚ) / (t : ℚ) ≤ 1000 := by
    rw [div_le_iff ht0]
    linarith
  refine ⟨?_, ?_, ?_, ?_⟩
  · rw [round1, hX]
    have h0 := rndHalfEven_nonneg hx0
    have : (0:ℚ) ≤ (rndHalfEven (1000 * (c : ℚ) / (t : ℚ)) : ℚ) := by
      exact_mod_cast h0
    linarith
  · rw [round1, hX]
    have hle : rndHalfEven (1000 * (c : ℚ) / (t : ℚ)) ≤ 1000 :=
      rndHalfEven_le_of_lt (n := 1000) (by push_cast; linarith)
    have : (rndHalfEven (1000 * (c : ℚ) / (t : ℚ)) : ℚ) ≤ 1000 := by
      exact_mod_cast hle
    linarith
  · rw [round1, hX]
    constructor
    · intro hs
      by_contra hc0
      have hc1 : 1 ≤ c := Nat.one_le_iff_ne_zero.mpr hc0
      have hc1q : (1:ℚ) ≤ (c : ℚ) := by exact_mod_cast hc1
      have hgt : (1:ℚ)/2 < 1000 * (c : ℚ) / (t : ℚ) := by
        rw [lt_div_iff ht0]
        linarith
      have hge := rndHalfEven_one_le hgt
      have hgeq : (1:ℚ) ≤ (rndHalfEven (1000 * (c : ℚ) / (t : ℚ)) : ℚ) := by
        exact_mod_cast hge
      rw [div_eq_iff (by norm_num : (10:ℚ) ≠ 0)] at hs
      linarith
    · intro hc0
      subst hc0
      have hz : 1000 * ((0 : ℕ) : ℚ) / (t : ℚ) = ((0 : ℤ) : ℚ) := by
        push_cast
        ring
      rw [hz, rndHalfEven_intCast]
      norm_num
  · rw [round1, hX]
    constructor
    · intro hs
      by_contra hne
      have hlt : c < t := lt_of_le_of_ne hc hne
      have hcq1 : (c : ℚ) + 1 ≤ (t : ℚ) := by exact_mod_cast hlt
      have hxlt : 1000 * (c : ℚ) / (t : ℚ) < ((999 : ℤ) : ℚ) + 1/2 := by
        push_cast
        rw [div_lt_iff ht0]
        linarith
      have hle := rndHalfEven_le_of_lt hxlt
      have hleq : (rndHalfEven (1000 * (c : ℚ) / (t : ℚ)) : ℚ) ≤ 999 := by
        exact_mod_cast hle
      rw [div_eq_iff (by norm_num : (10:ℚ) ≠ 0)] at hs
      linarith
    · intro hct
      subst hct
      have hz : 1000 * (c : ℚ) / (c : ℚ) = ((1000 : ℤ) : ℚ) := by
        field_simp
      rw [hz, rndHalfEven_intCast]
      norm_num

/-- C1 counterexample: a finalized session with 2001 selected questions and
exactly one correct answer gets score `0.0` (since `100/2001 < 0.05` rounds
down to zero), so `score == 0` does not imply `correctCount == 0` and the
claim's iff fails as universally stated. -/
theorem countP_replicate {α : Type} (p : α → Bool) (n : ℕ) (a : α) :
    (List.replicate n a).countP p = if p a then n else 0 := by
  induction n with
  | zero => simp
  | succ n ih =>
    rw [List.replicate_succ, List.countP_cons, ih]
    by_cases hp : p a <;> simp [hp]

theorem calculate_final_score_iff_cex :
    (calculate_final_score db1 (1 :: List.replicate 2000 2) [(1, "A")]).1 = 1 ∧
    (calculate_final_score db1 (1 :: List.replicate 2000 2) [(1, "A")]).2.1 = 2001 ∧
    (calculate_final_score db1 (1 :: List.replicate 2000 2) [(1, "A")]).2.2 = 0 := by
  have hcount : (1 :: List.replicate 2000 2).countP
      (fun qid => answer_is_correct db1 [(1, "A")] qid) = 1 := by
    rw [List.countP_cons, countP_replicate]
    have h1 : answer_is_correct db1 [(1, "A")] 1 = true := by decide
    have h2 : answer_is_correct db1 [(1, "A")] 2 = false := by decide
    simp [h1, h2]
  have hlen : (1 :: List.replicate 2000 2).length = 2001 := by
    rw [List.length_cons, List.length_replicate]
  have hround : round1 ((((1 : ℕ) : ℚ) / ((2001 : ℕ) : ℚ)) * 100) = 0 := by
    rw [round1]
    have hx : (10 : ℚ) * ((((1 : ℕ) : ℚ) / ((2001 : ℕ) : ℚ)) * 100) = 1000 / 2001 := by
      push_cast
      ring
    rw [hx, rndHalfEven_eq_of_lt_half (n := 0) (by norm_num) (by norm_num)]
    norm_num
  have hstep : calculate_final_score db1 (1 :: List.replicate 2000 2) [(1, "A")]
      = (1, 2001, 0) := by
    unfold calculate_final_score
    simp only [hcount, hlen, hround, if_pos (by norm_num : 0 < 2001)]
  rw [hstep]
  exact ⟨rfl, rfl, rfl⟩

/-- C1 (amended): for every finalized session with
`1 ≤ totalCount ≤ 1999`, `calculate_final_score` returns
`totalCount = len(question_ids)`, `correctCount ≤ totalCount`,
`score = round(100 * correctCount / totalCount, 1)`, `0 ≤ score ≤ 100`,
`score == 0` iff `correctCount == 0`, and `score == 100` iff
`correctCount == totalCount` (for larger sessions the two iffs can fail,
see the counterexample). -/
theorem calculate_final_score_spec (db : List Question) (qids : List ℕ)
    (ua : List (ℕ × String)) (h1 : 1 ≤ qids.length) (h2 : qids.length ≤ 1999) :
    (calculate_final_score db qids ua).2.1 = qids.length ∧
    (calculate_final_score db qids ua).1 ≤ (calculate_final_score db qids ua).2.1 ∧
    (calculate_final_score db qids ua).2.2 =
      round1 ((((calculate_final_score db qids ua).1 : ℚ) /
        ((calculate_final_score db qids ua).2.1 : ℚ)) * 100) ∧
    0 ≤ (calculate_final_score db qids ua).2.2 ∧
    (calculate_final_score db qids ua).2.2 ≤ 100 ∧
    ((calculate_final_score db qids ua).2.2 = 0 ↔
      (calculate_final_score db qids ua).1 = 0) ∧
    ((calculate_final_score db qids ua).2.2 = 100 ↔
      (calculate_final_score db qids ua).1 = (calculate_final_score db qids ua).2.1) := by
  have hcle : qids.countP (fun qid => answer_is_correct db ua qid) ≤ qids.length :=
    List.countP_le_length _
  have hpos : 0 < qids.length := h1
  obtain ⟨hb0, hb100, hiff0, hiff100⟩ :=
    score_props (qids.countP (fun qid => answer_is_correct db ua qid))
      qids.length hcle h1 h2
  have hs : calculate_final_score db qids ua =
      (qids.countP (fun qid => answer_is_correct db ua qid), qids.length,
        round1 ((((qids.countP (fun qid => answer_is_correct db ua qid)) : ℚ) /
          ((qids.length) : ℚ)) * 100)) := by
    unfold calculate_final_score
    simp only [if_pos hpos]
  rw [hs]
  exact ⟨rfl, hcle, rfl, hb0, hb100, hiff0, hiff100⟩

/-- C1 witness: a two-question session with one correct answer satisfies the
hypotheses, and the zero-iff holds there. -/
theorem calculate_final_score_spec_witness :
    1 ≤ ([1, 2] : List ℕ).length ∧ ([1, 2] : List ℕ).length ≤ 1999 ∧
    ((calculate_final_score db1 [1, 2] [(1, "A")]).2.2 = 0 ↔
      (calculate_final_score db1 [1, 2] [(1, "A")]).1 = 0) :=
  ⟨by decide, by decide,
    (calculate_final_score_spec db1 [1, 2] [(1, "A")] (by decide)
      (by decide)).2.2.2.2.2.1⟩

/-! ## Claim C3: finalizing an empty session -/

/-- C3 counterexample: `calculate_final_score` on an empty question list does
not fail with any `EmptySession` error — it returns the zero triple
`(0, 0, 0)` normally, i.e. it silently returns a zero score. -/
theorem calculate_final_score_empty_cex :
    calculate_final_score db1 [] [] = (0, 0, 0) := rfl

/-- C3 (amended): for every question pool and answers dict, finalizing with
an empty selected-question list returns `(0, 0, 0)` without raising; the
`total > 0` guard makes the score `0` rather than failing loudly. -/
theorem calculate_final_score_empty (db : List Question)
    (ua : List (ℕ × String)) : calculate_final_score db [] ua = (0, 0, 0) := rfl

/-! ## Claim C4: answer grading -/

/-- C4 counterexample: grading a `None` submitted answer against an existing
question raises `AttributeError` (`None.upper()`), so `GradeAnswer(q, null)`
does not return `false` — it throws. -/
theorem check_answer_none_cex :
    check_answer db1 1 none = .error .attributeError := rfl

/-- C4 (amended): when the question exists, grading compares the submitted
answer against the stored correct answer case-insensitively (both sides
uppercased); an empty-string answer is graded incorrect whenever the stored
correct answer is non-empty; a `None` answer raises `AttributeError` instead
of returning `false`. -/
theorem check_answer_spec (db : List Question) (qid : ℕ) (q : Question)
    (hq : query_get db qid = some q) (hne : q.correct_answer ≠ "") :
    (∀ s, check_answer db qid (some s) =
      .ok (decide (upper s = upper q.correct_answer))) ∧
    check_answer db qid (some ("")) = .ok false ∧
    check_answer db qid none = .error .attributeError := by
  refine ⟨?_, ?_, ?_⟩
  · intro s
    simp [check_answer, hq, py_upper]
  · have hupper : upper q.correct_answer ≠ "" := by
      intro hcon
      apply hne
      have hdata := congrArg String.data hcon
      have hnil : q.correct_answer.data.map Char.toUpper = [] := hdata
      have hdnil : q.correct_answer.data = [] := List.map_eq_nil.mp hnil
      have hdd : q.correct_answer.data = ("" : String).data := by
        rw [hdnil]
      exact String.ext hdd
    unfold check_answer
    rw [hq]
    show Except.ok (decide (upper ("") = upper q.correct_answer)) = Except.ok false
    rw [decide_eq_false (fun hcon => hupper hcon.symm)]
  · simp [check_answer, hq, py_upper]

/-- C4 witness: instantiated on the one-question pool — the empty string is
graded incorrect and the `None` answer raises. -/
theorem check_answer_spec_witness :
    check_answer db1 1 (some ("")) = .ok false ∧
    check_answer db1 1 none = .error .attributeError :=
  ⟨(check_answer_spec db1 1
      { id := 1, question_text := "2 + 2 ?", correct_answer := "A",
        category := some ("grammar") } rfl (by decide)).2.1,
   (check_answer_spec db1 1
      { id := 1, question_text := "2 + 2 ?", correct_answer := "A",
        category := some ("grammar") } rfl (by decide)).2.2⟩

/-! ## Claim C2: speaking area score -/

theorem list_filterMap_ext {α β : Type} (f g : α → Option β)
    (h : ∀ a, f a = g a) (l : List α) : l.filterMap f = l.filterMap g := by
  rw [show f = g from funext h]

/-- The speaking contributions list selects exactly the graded speaking
submissions whose sub-scores are both present and nonzero. -/
theorem speaking_contributions_eq (subs : List Submission) :
    speaking_contributions subs = (speaking_subs subs).filterMap (fun s =>
      match s.grade with
      | some g =>
        match g.pronunciation_score, g.fluency_score with
        | some p, some f => if p ≠ 0 ∧ f ≠ 0 then some ((p + f) / 2) else none
        | _, _ => none
      | none => none) := by
  unfold speaking_contributions
  apply list_filterMap_ext
  intro s
  rcases s with ⟨sid, ty, gr, day⟩
  cases gr with
  | none => rfl
  | some g =>
    rcases g with ⟨sc, pron, flu⟩
    cases pron with
    | none => simp [truthy]
    | some p =>
      cases flu with
      | none => simp [truthy]
      | some f =>
        by_cases hp0 : p = 0
        · simp [truthy, hp0]
        · by_cases hf0 : f = 0
          · simp [truthy, hp0, hf0]
          · simp [truthy, hp0, hf0]

/-- C2 counterexample: a graded speaking activity with pronunciation `0`
and fluency `80` has both sub-scores present, yet the code excludes it
(Python truthiness treats the `0.0` sub-score like a missing one): the code
returns `0.0` where the claim's average is `40.0`. -/
theorem speaking_score_zero_subscore_cex :
    speaking_score [subZeroPron] = 0 ∧
    speaking_score_claim [subZeroPron] = 40 ∧
    speaking_score [subZeroPron] ≠ speaking_score_claim [subZeroPron] := by
  have h40 : round1 (40 : ℚ) = 40 := by
    have := round1_intCast 40
    push_cast at this
    exact this
  have h1 : speaking_score [subZeroPron] = 0 := by
    simp [speaking_score, speaking_subs, speaking_contributions, subZeroPron,
      truthy]
  have h2 : speaking_score_claim [subZeroPron] = 40 := by
    have hc : (80 : ℚ) / 2 = 40 := by norm_num
    simp [speaking_score_claim, speaking_subs, subZeroPron, hc, h40]
  refine ⟨h1, h2, ?_⟩
  rw [h1, h2]
  norm_num

/-- C2 (amended): the speaking area score averages `(pronunciation +
fluency) / 2` (rounded to one decimal) over exactly those graded speaking
activities whose two sub-scores are both present *and nonzero*; activities
missing either sub-score, or carrying a zero one, are excluded, and `0.0`
is returned when no activities qualify. -/
theorem speaking_score_eq_amended (subs : List Submission) :
    speaking_score subs = speaking_score_amended subs := by
  unfold speaking_score speaking_score_amended
  rw [speaking_contributions_eq]
  by_cases hsp : (speaking_subs subs).isEmpty
  · have hnil : speaking_subs subs = [] := by
      cases h : speaking_subs subs
      · rfl
      · rw [h] at hsp
        simp [List.isEmpty] at hsp
    simp [hsp, hnil]
  · simp [hsp]

/-! ## Claim C5: next-action recommendation -/

/-- C5 counterexample: a student with one *ungraded* speaking submission and
no writing submissions. The claim's table (conditions on submissions
*ever*) picks "Improve Your Writing" at step (2), but the code's first
condition tests the graded-speaking list, which is empty, so the code
returns "Improve Your Speaking". -/
theorem recommended_next_cex :
    recommended_next [subUngraded] 0 = "Improve Your Speaking" ∧
    recommend_claim [subUngraded] 0 = "Improve Your Writing" ∧
    recommended_next [subUngraded] 0 ≠ recommend_claim [subUngraded] 0 := by
  refine ⟨rfl, rfl, ?_⟩
  decide

/-- C5 (amended): the decision table is evaluated in the stated order with
the first match winning, but conditions (1) and (2) test the *graded*
speaking/writing submission lists (`s.grade` truthiness), not submissions
ever: (1) no graded speaking → "Improve Your Speaking"; (2) no graded
writing → "Improve Your Writing"; (3) speakingScore < 70 → speaking;
(4) writingScore < 70 → writing; (5) completedQuizCount == 0 →
"Take a Quiz"; (6) otherwise "Start Your First Activity". -/
theorem recommended_next_spec (subs : List Submission) (cq : ℕ) :
    (speaking_subs subs = [] →
      recommended_next subs cq = "Improve Your Speaking") ∧
    (speaking_subs subs ≠ [] → writing_subs subs = [] →
      recommended_next subs cq = "Improve Your Writing") ∧
    (speaking_subs subs ≠ [] → writing_subs subs ≠ [] →
      speaking_score subs < 70 →
      recommended_next subs cq = "Improve Your Speaking") ∧
    (speaking_subs subs ≠ [] → writing_subs subs ≠ [] →
      ¬ speaking_score subs < 70 → writing_score subs < 70 →
      recommended_next subs cq = "Improve Your Writing") ∧
    (speaking_subs subs ≠ [] → writing_subs subs ≠ [] →
      ¬ speaking_score subs < 70 → ¬ writing_score subs < 70 → cq = 0 →
      recommended_next subs cq = "Take a Quiz") ∧
    (speaking_subs subs ≠ [] → writing_subs subs ≠ [] →
      ¬ speaking_score subs < 70 → ¬ writing_score subs < 70 → cq ≠ 0 →
      recommended_next subs cq = "Start Your First Activity") := by
  unfold recommended_next
  refine ⟨?_, ?_, ?_, ?_, ?_, ?_⟩ <;> intros <;>
    simp_all [List.isEmpty_iff, not_lt] <;>
    rw [if_neg (by linarith : ¬ speaking_score subs < 70),
      if_neg (by linarith : ¬ writing_score subs < 70)]

/-- C5 witness: a student with no submissions at all lands in the first
row of the table. -/
theorem recommended_next_spec_witness :
    recommended_next [] 5 = "Improve Your Speaking" :=
  (recommended_next_spec [] 5).1 rfl

/-! ## Claim C6: question selection and availability -/

theorem distinct_categories_sound (db : List Question) :
    ∀ c ∈ distinct_categories db, ∃ q ∈ db, q.category = some c := by
  intro c hc
  unfold distinct_categories at hc
  rw [List.mem_filterMap] at hc
  obtain ⟨o, ho, hfo⟩ := hc
  rw [List.mem_dedup, List.mem_map] at ho
  obtain ⟨q, hq, hqo⟩ := ho
  cases o with
  | none => simp at hfo
  | some s =>
    by_cases hs : s = ""
    · simp [hs] at hfo
    · simp [hs] at hfo
      subst hfo
      exact ⟨q, hq, hqo⟩

theorem distinct_categories_complete (db : List Question) :
    ∀ q ∈ db, ∀ c, q.category = some c → c ≠ "" → c ∈ distinct_categories db := by
  intro q hq c hc hne
  unfold distinct_categories
  rw [List.mem_filterMap]
  refine ⟨some c, ?_, by simp [hne]⟩
  rw [List.mem_dedup, List.mem_map]
  exact ⟨q, hq, hc⟩

/-- C6: availability checking fails exactly when zero questions match the
request under case-insensitive category matching (empty pool included); the
failure message for a missing category carries the distinct non-empty
categories, each of which has at least one question (and every non-empty
category of the pool is listed); selection returns only matching questions,
never more than `limit`, and returns *all* matches whenever at most `limit`
match — under-fill is not an error, only zero-fill is. -/
theorem select_questions_spec (db : List Question) (limit : ℕ)
    (category : Option String) :
    ((check_questions_available db category).1 = false ↔
      (db.filter (question_matches category)).length = 0) ∧
    (∀ cats, (check_questions_available db category).2 =
        .noQuestionsForCategory cats →
      (∀ c ∈ cats, ∃ q ∈ db, q.category = some c) ∧
      (∀ q ∈ db, ∀ c, q.category = some c → c ≠ "" → c ∈ cats)) ∧
    (∀ q ∈ get_questions db limit category,
      q ∈ db.filter (question_matches category)) ∧
    (get_questions db limit category).length ≤ limit ∧
    ((db.filter (question_matches category)).length ≤ limit →
      get_questions db limit category = db.filter (question_matches category)) := by
  refine ⟨?_, ?_, ?_, ?_, ?_⟩
  · unfold check_questions_available
    by_cases hdb : db.length = 0
    · rw [if_pos hdb]
      have hnil : db = [] := List.length_eq_zero.mp hdb
      subst hnil
      simp
    · rw [if_neg hdb]
      cases category with
      | none =>
        have hft : db.filter (question_matches none) = db :=
          List.filter_eq_self.mpr (fun q hq => rfl)
        constructor
        · intro h
          simp at h
        · intro h
          rw [hft] at h
          exact absurd h hdb
      | some c =>
        by_cases hc : c = ""
        · subst hc
          have hft : db.filter (question_matches (some (""))) = db :=
            List.filter_eq_self.mpr (fun q hq => rfl)
          simp [hft, hdb]
        · have hfp : db.filter (question_matches (some c)) =
              db.filter (fun q => q.category.map lower == some (lower c)) := by
            apply List.filter_congr
            intro q hq
            have hcb : (c == "") = false := by
              rw [beq_eq_false_iff_ne]
              exact hc
            show (c == "" || Option.map lower q.category == some (lower c)) =
              (Option.map lower q.category == some (lower c))
            rw [hcb, Bool.false_or]
          by_cases hcnt :
              db.countP (fun q => q.category.map lower == some (lower c)) = 0
          · simp [hc, hcnt, hfp, ← List.countP_eq_length_filter]
          · simp [hc, hcnt, hfp, ← List.countP_eq_length_filter]
  · intro cats hmsg
    have hcats : cats = distinct_categories db := by
      unfold check_questions_available at hmsg
      by_cases hdb : db.length = 0
      · rw [if_pos hdb] at hmsg
        simp at hmsg
      · rw [if_neg hdb] at hmsg
        cases category with
        | none => simp at hmsg
        | some c =>
          by_cases hc : c = ""
          · subst hc
            simp at hmsg
          · by_cases hcnt :
                db.countP (fun q => q.category.map lower == some (lower c)) = 0
            · simp [hc, hcnt] at hmsg
              exact hmsg.symm
            · simp [hc, hcnt] at hmsg
    subst hcats
    exact ⟨distinct_categories_sound db, distinct_categories_complete db⟩
  · intro q hq
    unfold get_questions at hq
    exact List.take_subset limit _ hq
  · unfold get_questions
    exact List.length_take_le limit _
  · intro h
    unfold get_questions
    exact List.take_all_of_le h

/-- C6 witness: in the three-grammar/two-vocabulary pool, requesting
"reading" fails and the carried categories each have a question, while
requesting "grammar" with `limit = 5` returns all three matches. -/
theorem select_questions_spec_witness :
    (check_questions_available db2 (some ("reading"))).1 = false ∧
    (∀ c ∈ ["grammar", "vocabulary"], ∃ q ∈ db2, q.category = some c) ∧
    get_questions db2 5 (some ("grammar")) =
      db2.filter (question_matches (some ("grammar"))) :=
  ⟨(select_questions_spec db2 5 (some ("reading"))).1.mpr (by decide),
   ((select_questions_spec db2 5 (some ("reading"))).2.1 ["grammar", "vocabulary"]
     (by decide)).1,
   (select_questions_spec db2 5 (some ("grammar"))).2.2.2.2 (by decide)⟩

/-! ## Claim C8: strongest/weakest classification -/

theorem pickMax_go (l : List (String × ℚ)) :
    ∀ b : String × ℚ, ∃ p, l.foldl pickStepMax (some b) = some p ∧
      (p = b ∨ p ∈ l) ∧ b.2 ≤ p.2 ∧ ∀ x ∈ l, x.2 ≤ p.2 := by
  induction l with
  | nil =>
    intro b
    exact ⟨b, rfl, Or.inl rfl, le_refl _, by simp⟩
  | cons x l ih =>
    intro b
    rw [List.foldl_cons]
    by_cases hbx : b.2 < x.2
    · rw [show pickStepMax (some b) x = some x from by simp [pickStepMax, hbx]]
      obtain ⟨p, hp, hmem, hle, hub⟩ := ih x
      refine ⟨p, hp, ?_, le_trans (le_of_lt hbx) hle, ?_⟩
      · rcases hmem with hh | hh
        · exact Or.inr (hh ▸ List.mem_cons_self x l)
        · exact Or.inr (List.mem_cons_of_mem x hh)
      · intro y hy
        rcases List.mem_cons.mp hy with hh | hh
        · rw [hh]
          exact hle
        · exact hub y hh
    · rw [show pickStepMax (some b) x = some b from by simp [pickStepMax, hbx]]
      obtain ⟨p, hp, hmem, hle, hub⟩ := ih b
      refine ⟨p, hp, ?_, hle, ?_⟩
      · rcases hmem with hh | hh
        · exact Or.inl hh
        · exact Or.inr (List.mem_cons_of_mem x hh)
      · intro y hy
        rcases List.mem_cons.mp hy with hh | hh
        · rw [hh]
          exact le_trans (not_lt.mp hbx) hle
        · exact hub y hh

theorem pickMax_spec (l : List (String × ℚ)) (h : l ≠ []) :
    ∃ p, pickMax l = some p ∧ p ∈ l ∧ ∀ x ∈ l, x.2 ≤ p.2 := by
  cases l with
  | nil => exact absurd rfl h
  | cons x l =>
    unfold pickMax
    rw [List.foldl_cons, show pickStepMax none x = some x from rfl]
    obtain ⟨p, hp, hmem, hle, hub⟩ := pickMax_go l x
    refine ⟨p, hp, ?_, ?_⟩
    · rcases hmem with hh | hh
      · exact hh ▸ List.mem_cons_self x l
      · exact List.mem_cons_of_mem x hh
    · intro y hy
      rcases List.mem_cons.mp hy with hh | hh
      · rw [hh]
        exact hle
      · exact hub y hh

theorem pickMin_go (l : List (String × ℚ)) :
    ∀ b : String × ℚ, ∃ p, l.foldl pickStepMin (some b) = some p ∧
      (p = b ∨ p ∈ l) ∧ p.2 ≤ b.2 ∧ ∀ x ∈ l, p.2 ≤ x.2 := by
  induction l with
  | nil =>
    intro b
    exact ⟨b, rfl, Or.inl rfl, le_refl _, by simp⟩
  | cons x l ih =>
    intro b
    rw [List.foldl_cons]
    by_cases hbx : x.2 < b.2
    · rw [show pickStepMin (some b) x = some x from by simp [pickStepMin, hbx]]
      obtain ⟨p, hp, hmem, hle, hlb⟩ := ih x
      refine ⟨p, hp, ?_, le_trans hle (le_of_lt hbx), ?_⟩
      · rcases hmem with hh | hh
        · exact Or.inr (hh ▸ List.mem_cons_self x l)
        · exact Or.inr (List.mem_cons_of_mem x hh)
      · intro y hy
        rcases List.mem_cons.mp hy with hh | hh
        · rw [hh]
          exact hle
        · exact hlb y hh
    · rw [show pickStepMin (some b) x = some b from by simp [pickStepMin, hbx]]
      obtain ⟨p, hp, hmem, hle, hlb⟩ := ih b
      refine ⟨p, hp, ?_, hle, ?_⟩
      · rcases hmem with hh | hh
        · exact Or.inl hh
        · exact Or.inr (List.mem_cons_of_mem x hh)
      · intro y hy
        rcases List.mem_cons.mp hy with hh | hh
        · rw [hh]
          exact le_trans hle (not_lt.mp hbx)
        · exact hlb y hh

theorem pickMin_spec (l : List (String × ℚ)) (h : l ≠ []) :
    ∃ p, pickMin l = some p ∧ p ∈ l ∧ ∀ x ∈ l, p.2 ≤ x.2 := by
  cases l with
  | nil => exact absurd rfl h
  | cons x l =>
    unfold pickMin
    rw [List.foldl_cons, show pickStepMin none x = some x from rfl]
    obtain ⟨p, hp, hmem, hle, hlb⟩ := pickMin_go l x
    refine ⟨p, hp, ?_, ?_⟩
    · rcases hmem with hh | hh
      · exact hh ▸ List.mem_cons_self x l
      · exact List.mem_cons_of_mem x hh
    · intro y hy
      rcases List.mem_cons.mp hy with hh | hh
      · rw [hh]
        exact hle
      · exact hlb y hh

/-- C8: for non-negative area scores, every kind whose score is `0.0` is
excluded before max/min are taken: when all four are excluded the fixed
fallback pair (Speaking/0.0, Handwritten/0.0) is returned, and otherwise
the strongest and weakest entries both come from the non-zero kinds, with
the weakest score a lower bound and the strongest an upper bound of every
non-zero kind's score. -/
theorem classify_spec (sp w q h : ℚ) (hsp : 0 ≤ sp) (hw : 0 ≤ w) (hq : 0 ≤ q)
    (hh : 0 ≤ h) :
    ((area_scores sp w q h).filter (fun kv => decide (kv.2 ≠ 0)) = [] →
      classify_strongest_weakest sp w q h = ("Speaking", 0, "Handwritten", 0)) ∧
    ((area_scores sp w q h).filter (fun kv => decide (kv.2 ≠ 0)) ≠ [] →
      ∃ sk ss wk ws, classify_strongest_weakest sp w q h = (sk, ss, wk, ws) ∧
        (sk, ss) ∈ (area_scores sp w q h).filter (fun kv => decide (kv.2 ≠ 0)) ∧
        (wk, ws) ∈ (area_scores sp w q h).filter (fun kv => decide (kv.2 ≠ 0)) ∧
        ∀ kv ∈ (area_scores sp w q h).filter (fun kv => decide (kv.2 ≠ 0)),
          ws ≤ kv.2 ∧ kv.2 ≤ ss) := by
  have hfeq : (area_scores sp w q h).filter (fun kv => decide (kv.2 ≠ 0)) =
      (area_scores sp w q h).filter (fun kv => decide (0 < kv.2)) := by
    apply List.filter_congr
    intro kv hkv
    have h0 : 0 ≤ kv.2 := by
      simp [area_scores] at hkv
      rcases hkv with rfl | rfl | rfl | rfl <;> assumption
    rw [decide_eq_decide]
    constructor
    · intro hne
      exact lt_of_le_of_ne h0 (Ne.symm hne)
    · intro hlt
      exact ne_of_gt hlt
  constructor
  · intro hnil
    rw [hfeq] at hnil
    simp only [classify_strongest_weakest]
    rw [hnil]
    rfl
  · intro hne
    rw [hfeq] at hne
    obtain ⟨pmax, hpmax, hmaxmem, hmaxub⟩ := pickMax_spec _ hne
    obtain ⟨pmin, hpmin, hminmem, hminlb⟩ := pickMin_spec _ hne
    refine ⟨pmax.1, pmax.2, pmin.1, pmin.2, ?_, ?_, ?_, ?_⟩
    · simp only [classify_strongest_weakest]
      rw [hpmax, hpmin]
    · rw [hfeq]
      exact hmaxmem
    · rw [hfeq]
      exact hminmem
    · intro kv hkv
      rw [hfeq] at hkv
      exact ⟨hminlb kv hkv, hmaxub kv hkv⟩

/-- C8 witness: scores (80, 60, 0, 0) keep Speaking and Writing only —
the classification picks from those. -/
theorem classify_spec_witness :
    ∃ sk ss wk ws, classify_strongest_weakest 80 60 0 0 = (sk, ss, wk, ws) ∧
      (sk, ss) ∈ (area_scores 80 60 0 0).filter (fun kv => decide (kv.2 ≠ 0)) ∧
      (wk, ws) ∈ (area_scores 80 60 0 0).filter (fun kv => decide (kv.2 ≠ 0)) ∧
      ∀ kv ∈ (area_scores 80 60 0 0).filter (fun kv => decide (kv.2 ≠ 0)),
        ws ≤ kv.2 ∧ kv.2 ≤ ss :=
  (classify_spec 80 60 0 0 (by decide) (by decide) (by decide) (by decide)).2
    (by decide)

/-! ## Claim C9: result persistence -/

theorem agg_subCount (window : List ℤ) (d : ℤ) (hd : d ∈ window)
    (subs : List Submission) : ∀ init : DayAgg,
    (subs.foldl (aggStep window) init).subCount d =
      init.subCount d +
        (subs.filter (fun s => decide (s.created_at = d))).length := by
  induction subs with
  | nil =>
    intro init
    simp
  | cons s l ih =>
    intro init
    rw [List.foldl_cons, ih]
    by_cases hw : s.created_at ∈ window
    · by_cases hsd : s.created_at = d
      · simp [aggStep, hw, hd, hsd, List.filter_cons]
        omega
      · have hds : ¬ d = s.created_at := fun hcon => hsd hcon.symm
        simp [aggStep, hw, hd, hsd, hds, List.filter_cons]
    · have hsd : ¬ s.created_at = d := fun hcon => hw (hcon ▸ hd)
      simp [aggStep, hw, hd, hsd, List.filter_cons]

theorem agg_pendingCount (window : List ℤ) (d : ℤ) (hd : d ∈ window)
    (subs : List Submission) : ∀ init : DayAgg,
    (subs.foldl (aggStep window) init).pendingCount d =
      init.pendingCount d +
        (subs.filter (fun s =>
          decide (s.created_at = d) && s.grade.isNone)).length := by
  induction subs with
  | nil =>
    intro init
    simp
  | cons s l ih =>
    intro init
    rw [List.foldl_cons, ih]
    by_cases hw : s.created_at ∈ window
    · by_cases hsd : s.created_at = d
      · cases hg : s.grade with
        | none =>
          simp [aggStep, hw, hd, hsd, hg, List.filter_cons]
          omega
        | some g =>
          simp [aggStep, hw, hd, hsd, hg, List.filter_cons]
      · have hds : ¬ d = s.created_at := fun hcon => hsd hcon.symm
        cases hg : s.grade with
        | none => simp [aggStep, hw, hd, hsd, hds, hg, List.filter_cons]
        | some g => simp [aggStep, hw, hd, hsd, hds, hg, List.filter_cons]
    · have hsd : ¬ s.created_at = d := fun hcon => hw (hcon ▸ hd)
      cases hg : s.grade with
      | none => simp [aggStep, hw, hd, hsd, hg, List.filter_cons]
      | some g => simp [aggStep, hw, hd, hsd, hg, List.filter_cons]

theorem agg_dayScores (window : List ℤ) (d : ℤ) (hd : d ∈ window)
    (subs : List Submission) : ∀ init : DayAgg,
    (subs.foldl (aggStep window) init).dayScores d =
      init.dayScores d ++ subs.filterMap (fun s =>
        if s.created_at = d then s.grade.map Grade.score else none) := by
  induction subs with
  | nil =>
    intro init
    simp
  | cons s l ih =>
    intro init
    rw [List.foldl_cons, ih]
    by_cases hw : s.created_at ∈ window
    · by_cases hsd : s.created_at = d
      · cases hg : s.grade with
        | none => simp [aggStep, hw, hd, hsd, hg, List.filterMap_cons]
        | some g =>
          simp [aggStep, hw, hd, hsd, hg, List.filterMap_cons]
      · have hds : ¬ d = s.created_at := fun hcon => hsd hcon.symm
        cases hg : s.grade with
        | none => simp [aggStep, hw, hd, hsd, hds, hg, List.filterMap_cons]
        | some g => simp [aggStep, hw, hd, hsd, hds, hg, List.filterMap_cons]
    · have hsd : ¬ s.created_at = d := fun hcon => hw (hcon ▸ hd)
      cases hg : s.grade with
      | none => simp [aggStep, hw, hd, hsd, hg, List.filterMap_cons]
      | some g => simp [aggStep, hw, hd, hsd, hg, List.filterMap_cons]

theorem agg_activeStudents (window : List ℤ) (d : ℤ) (hd : d ∈ window)
    (subs : List Submission) : ∀ init : DayAgg,
    (subs.foldl (aggStep window) init).activeStudents d =
      init.activeStudents d ∪
        ((subs.filter (fun s => decide (s.created_at = d))).map
          (fun s => s.student_id)).toFinset := by
  induction subs with
  | nil =>
    intro init
    simp
  | cons s l ih =>
    intro init
    rw [List.foldl_cons, ih]
    by_cases hw : s.created_at ∈ window
    · by_cases hsd : s.created_at = d
      · simp [aggStep, hw, hd, hsd, List.filter_cons, List.toFinset_cons,
          Finset.insert_union, Finset.union_insert]
      · have hds : ¬ d = s.created_at := fun hcon => hsd hcon.symm
        simp [aggStep, hw, hd, hsd, hds, List.filter_cons]
    · have hsd : ¬ s.created_at = d := fun hcon => hw (hcon ▸ hd)
      simp [aggStep, hw, hd, hsd, List.filter_cons]

/-- C7 counterexample: three submissions on the reference day with grade
scores 0, 0 and 1. The code reports the day's average as
`round(1/3, 1) = 0.3`, not the exact mean `1/3` the claim states, so
`avgScore` is the rounded mean, not the mean. -/
theorem sparkline_avg_cex :
    (sparkline_data subsThird 0).classAvg ≠ class_avg_claim subsThird 0 := by
  have hthird : round1 ((3 : ℚ)⁻¹) = 3/10 := by
    have hx : (10 : ℚ) * ((3 : ℚ)⁻¹) = 10/3 := by ring
    rw [round1, hx,
      rndHalfEven_eq_of_lt_half (n := 3) (by norm_num) (by norm_num)]
    norm_num
  have hval : ∀ d, d ∈ last7Days 0 →
      (subsThird.foldl (aggStep (last7Days 0)) emptyAgg).dayScores d =
        if d = 0 then [0, 0, 1] else [] := by
    intro d hd
    rw [agg_dayScores _ d hd]
    by_cases hd0 : d = 0
    · subst hd0
      simp [subsThird, gradedOn0, emptyAgg]
    · have h0d : ¬ ((0:ℤ) = d) := fun hcon => hd0 hcon.symm
      simp [subsThird, gradedOn0, emptyAgg, h0d, hd0]
  have hcode : (sparkline_data subsThird 0).classAvg =
      [0, 0, 0, 0, 0, 0, 3/10] := by
    show (last7Days 0).map (fun d =>
        if ((subsThird.foldl (aggStep (last7Days 0)) emptyAgg).dayScores d).isEmpty
        then 0
        else round1
          (((subsThird.foldl (aggStep (last7Days 0)) emptyAgg).dayScores d).sum /
            ((subsThird.foldl (aggStep (last7Days 0)) emptyAgg).dayScores d).length)) =
      [0, 0, 0, 0, 0, 0, 3/10]
    have hfun : ∀ d ∈ last7Days 0,
        (if ((subsThird.foldl (aggStep (last7Days 0)) emptyAgg).dayScores d).isEmpty
         then (0:ℚ)
         else round1
          (((subsThird.foldl (aggStep (last7Days 0)) emptyAgg).dayScores d).sum /
            ((subsThird.foldl (aggStep (last7Days 0)) emptyAgg).dayScores d).length)) =
        if d = 0 then 3/10 else 0 := by
      intro d hd
      rw [hval d hd]
      by_cases hd0 : d = 0
      · subst hd0
        rw [if_pos rfl]
        have hsum : ([0, 0, 1] : List ℚ).sum / (([0, 0, 1] : List ℚ).length : ℚ)
            = (1 : ℚ)/3 := by
          simp
        simp [hsum, hthird]
      · simp [hd0]
    rw [List.map_congr_left hfun]
    norm_num [last7Days]
  have hclaim : class_avg_claim subsThird 0 = [0, 0, 0, 0, 0, 0, 1/3] := by
    unfold class_avg_claim
    have hfun : ∀ d ∈ last7Days 0,
        (let l := subsThird.filterMap (fun s =>
          if s.created_at = d then s.grade.map Grade.score else none)
         if l.isEmpty then (0:ℚ) else l.sum / l.length) =
        if d = 0 then 1/3 else 0 := by
      intro d hd
      by_cases hd0 : d = 0
      · subst hd0
        simp [subsThird, gradedOn0]
      · have h0d : ¬ ((0:ℤ) = d) := fun hcon => hd0 hcon.symm
        simp [subsThird, gradedOn0, h0d, hd0]
    rw [List.map_congr_left hfun]
    norm_num [last7Days]
  rw [hcode, hclaim]
  simp
  norm_num

/-- C7 (amended): the 7-day window covers exactly the days `D-6 .. D`,
oldest first; per day the code reports the number of submissions created
that day, the number of those without a grade, the day's mean grade score
*rounded to one decimal* (`0.0` when nothing was graded that day), and the
number of distinct submitting students; activities outside the window are
ignored entirely. -/
theorem sparkline_spec (subs : List Submission) (today : ℤ) :
    last7Days today = [today - 6, today - 5, today - 4, today - 3, today - 2,
      today - 1, today] ∧
    (sparkline_data subs today).submissions =
      (last7Days today).map (fun d =>
        (subs.filter (fun s => decide (s.created_at = d))).length) ∧
    (sparkline_data subs today).pending =
      (last7Days today).map (fun d =>
        (subs.filter (fun s =>
          decide (s.created_at = d) && s.grade.isNone)).length) ∧
    (sparkline_data subs today).classAvg =
      (last7Days today).map (fun d =>
        let l := subs.filterMap (fun s =>
          if s.created_at = d then s.grade.map Grade.score else none)
        if l.isEmpty then 0 else round1 (l.sum / l.length)) ∧
    (sparkline_data subs today).activeStudents =
      (last7Days today).map (fun d =>
        ((subs.filter (fun s => decide (s.created_at = d))).map
          (fun s => s.student_id)).toFinset.card) := by
  refine ⟨rfl, ?_, ?_, ?_, ?_⟩
  · show (last7Days today).map
        (subs.foldl (aggStep (last7Days today)) emptyAgg).subCount = _
    apply List.map_congr_left
    intro d hd
    rw [agg_subCount _ d hd]
    simp [emptyAgg]
  · show (last7Days today).map
        (subs.foldl (aggStep (last7Days today)) emptyAgg).pendingCount = _
    apply List.map_congr_left
    intro d hd
    rw [agg_pendingCount _ d hd]
    simp [emptyAgg]
  · show (last7Days today).map (fun d =>
        if ((subs.foldl (aggStep (last7Days today)) emptyAgg).dayScores d).isEmpty
        then 0
        else round1
          (((subs.foldl (aggStep (last7Days today)) emptyAgg).dayScores d).sum /
            ((subs.foldl (aggStep (last7Days today)) emptyAgg).dayScores d).length))
      = _
    apply List.map_congr_left
    intro d hd
    rw [agg_dayScores _ d hd]
    simp [emptyAgg]
  · show (last7Days today).map (fun d =>
        ((subs.foldl (aggStep (last7Days today)) emptyAgg).activeStudents d).card)
      = _
    apply List.map_congr_left
    intro d hd
    rw [agg_activeStudents _ d hd]
    simp [emptyAgg]

/-! ## Claim C10: chart series shape invariants -/

/-- C10: the chart record has all four score series exactly as long as the
dates list (one entry per kind per date), the dates are distinct and appear
in strictly ascending order, and the dates list contains exactly the union
of the observation days of the four kinds. -/
theorem chart_data_spec (subs : List Submission) (quizzes : List QuizRec) :
    (chart_data subs quizzes).speaking_scores.length =
      (chart_data subs quizzes).dates.length ∧
    (chart_data subs quizzes).writing_scores.length =
      (chart_data subs quizzes).dates.length ∧
    (chart_data subs quizzes).quiz_scores.length =
      (chart_data subs quizzes).dates.length ∧
    (chart_data subs quizzes).handwritten_scores.length =
      (chart_data subs quizzes).dates.length ∧
    (chart_data subs quizzes).dates.Nodup ∧
    List.Sorted (· < ·) (chart_data subs quizzes).dates ∧
    (∀ d : ℤ, d ∈ (chart_data subs quizzes).dates ↔
      (d ∈ (chart_speaking_obs subs).map Prod.fst ∨
       d ∈ (chart_writing_obs subs).map Prod.fst ∨
       d ∈ (chart_handwritten_obs subs).map Prod.fst ∨
       d ∈ (chart_quiz_obs quizzes).map Prod.fst)) := by
  refine ⟨?_, ?_, ?_, ?_, ?_, ?_, ?_⟩
  · exact List.length_map _ _
  · exact List.length_map _ _
  · exact List.length_map _ _
  · exact List.length_map _ _
  · show ((chart_dates subs quizzes).sort (· ≤ ·)).Nodup
    exact Finset.sort_nodup (· ≤ ·) _
  · show List.Sorted (· < ·) ((chart_dates subs quizzes).sort (· ≤ ·))
    exact Finset.sort_sorted_lt _
  · intro d
    show d ∈ (chart_dates subs quizzes).sort (· ≤ ·) ↔ _
    rw [Finset.mem_sort]
    unfold chart_dates
    simp only [Finset.mem_union, List.mem_toFinset]
    tauto

end Seng321
